import Mathlib

/-!
Shallow embedding of the `@gracile-labs/functional` hook/context core
(`src/functional.ts`, `src/hooks.ts`, `src/context.ts`, `src/utils.ts`).

Modelling conventions:
* JS values that may be `undefined` are `Option Nat` (`none` = `undefined`).
* Object identities (hosts, signal cells, context-key symbols, constructor
  objects) are natural numbers drawn from a single allocation counter
  `nextId`, so two allocations never collide.
* The mutable singleton `functionalState` is an explicit record `FState`
  threaded through every operation; a thrown JS exception is an
  `Option Err` flag returned next to the state (the state at the moment of
  the throw is kept, since JS exceptions do not roll back mutations).
* `WeakMap`/`Map` become association lists with first-match lookup and
  replace-or-append update.
* Effect/render closures are embedded as data: an effect body is described
  by whether it throws and which cleanup value it returns; render functions
  are programs in a small command language `Prog` interpreted by `runProg`.
* Values returned to the render function (cells from `useState` /
  `useContext`) and effect executions are recorded in an append-only
  `trace`, which is pure instrumentation of the model.
-/

/-- A JS value that may be `undefined` (`none`). -/
abbrev JSVal := Option Nat

/-- A mutable signal cell (`Signal.State`): which constructor built it and
its current value. -/
structure Cell where
  ctor : Nat
  value : JSVal
deriving Repr, DecidableEq

/-- One record of a host's effect queue, as pushed by `useEffect`:
`run` is `() => { const cleanup = function_(); ... }` where the user body
`function_` is described by `throwsFlag` (does it throw?) and `ret`
(the cleanup callable it returns, if any); `cleanup` is the record's
stored `cleanup` field, absent when pushed. `lbl` identifies the body for
tracing. -/
structure EffectRec where
  lbl : Nat
  throwsFlag : Bool
  ret : Option Nat
  cleanup : Option Nat
deriving Repr, DecidableEq

/-- A context key: `{ id: Symbol(name), default?: Signal.State }`
(`createContextKey` in `context.ts`). -/
structure ContextKey where
  id : Nat
  dflt : Option Nat
deriving Repr, DecidableEq

/-- Trace events: cells handed back to the render function, and effect
bodies executed by a flush. -/
inductive Ev where
  | stateCell (id : Nat)
  | ctxCell (id : Nat)
  | ran (lbl : Nat)
deriving Repr, DecidableEq

/-- Thrown JS exceptions of the library. -/
inductive Err where
  | outsideRender (op : String)
  | stackInvariant
  | missingContext
  | noSignal
  | undefinedIndex
  | userThrow
  | effectThrew
deriving Repr, DecidableEq

/-- First-match lookup in an association list (`Map.get` / `WeakMap.get`). -/
def lookupA {α : Type} : List (Nat × α) → Nat → Option α
  | [], _ => none
  | (k, v) :: rest, key => if k = key then some v else lookupA rest key

/-- Replace-or-append update (`Map.set` / `WeakMap.set`). -/
def setA {α : Type} : List (Nat × α) → Nat → α → List (Nat × α)
  | [], key, v => [(key, v)]
  | (k, w) :: rest, key, v =>
      if k = key then (k, v) :: rest else (k, w) :: setA rest key v

/-- Key removal (`WeakMap.delete`). -/
def deleteA {α : Type} : List (Nat × α) → Nat → List (Nat × α)
  | [], _ => []
  | (k, w) :: rest, key =>
      if k = key then rest else (k, w) :: deleteA rest key

/-- The `FunctionalState` singleton plus the ambient JS world the module
interacts with: the static `manualSignalCtor` field, the
`globalThis.Signal` binding, the allocation counter and heap of signal
cells, the pending-microtask queue, and the instrumentation trace. -/
structure FState where
  manualSignalCtor : Option Nat
  globalSignal : Option Nat
  nextId : Nat
  heap : List (Nat × Cell)
  storeMap : List (Nat × List (Option Nat))
  indexMap : List (Nat × Nat)
  contextStackMap : List (Nat × List (List (Nat × Nat)))
  effectMap : List (Nat × List EffectRec)
  currentRenderElement : Option Nat
  micro : List Nat
  trace : List Ev
deriving Repr, DecidableEq

/-- The pristine module state: no constructor registered, nothing rendered. -/
def initState : FState :=
  { manualSignalCtor := none
    globalSignal := none
    nextId := 0
    heap := []
    storeMap := []
    indexMap := []
    contextStackMap := []
    effectMap := []
    currentRenderElement := none
    micro := []
    trace := [] }

/-- `setSignalConstructor(ctor)` (`functional.ts`): sets the static
`manualSignalCtor` field. -/
def setSignalConstructor (c : Nat) (s : FState) : FState :=
  { s with manualSignalCtor := some c }

/-- The `FunctionalState.Signal` getter without its throwing tail:
`manualSignalCtor ?? globalThis.Signal`, `none` when the getter would
throw the setup error. -/
def signalCtor (s : FState) : Option Nat :=
  match s.manualSignalCtor with
  | some c => some c
  | none => s.globalSignal

/-- `new functionalState.Signal.State(v)`: resolves the constructor via the
`Signal` getter (throwing the setup error when neither injection path was
used) and allocates a fresh cell. Returns the new cell's identity. -/
def newStateCell (v : JSVal) (s : FState) : Except Err (Nat × FState) :=
  match signalCtor s with
  | none => .error .noSignal
  | some c =>
      .ok (s.nextId,
        { s with
            heap := s.heap ++ [(s.nextId, { ctor := c, value := v })]
            nextId := s.nextId + 1 })

/-- `Signal.State.prototype.set` on cell `cid` (the write-through used by
the `useState` setter and by external writers): updates the cell's value in
the heap, keeping its identity and constructor. -/
def setCell (cid : Nat) (v : JSVal) (s : FState) : FState :=
  match lookupA s.heap cid with
  | none => s
  | some cell => { s with heap := setA s.heap cid { cell with value := v } }

/-- `Signal.State.prototype.get` on cell `cid`. -/
def getCell (cid : Nat) (s : FState) : Option Cell :=
  lookupA s.heap cid

/-- JS sparse-array write `store[i] = v` on a possibly shorter array:
pads intermediate entries with holes (`none`). -/
def listSetPad (l : List (Option Nat)) (i : Nat) (v : Nat) : List (Option Nat) :=
  if i < l.length then l.set i (some v)
  else l ++ List.replicate (i - l.length) none ++ [some v]

/-- `useState(initial)` (`hooks.ts`). Following the source line by line:
guard the current host; fetch-or-create the host's store; read the cursor
(the source uses a non-null assertion `indexMap.get(host)!`, modelled by
the defensive `undefinedIndex` error, unreachable under `withFunctional`);
bump the cursor; create the slot's cell when the slot is unpopulated
(ignoring `initial` otherwise); return the slot's cell (traced). The
returned setter is write-through to that cell, modelled by `setCell`. -/
def useStateS (initial : JSVal) (s : FState) : FState × Option Err :=
  match s.currentRenderElement with
  | none => (s, some (.outsideRender "useState"))
  | some host =>
      let store := (lookupA s.storeMap host).getD []
      let s1 :=
        match lookupA s.storeMap host with
        | some _ => s
        | none => { s with storeMap := setA s.storeMap host [] }
      match lookupA s1.indexMap host with
      | none => (s1, some .undefinedIndex)
      | some index =>
          let s2 := { s1 with indexMap := setA s1.indexMap host (index + 1) }
          match store.getD index none with
          | some cellId =>
              ({ s2 with trace := s2.trace ++ [.stateCell cellId] }, none)
          | none =>
              match newStateCell initial s2 with
              | .error e => (s2, some e)
              | .ok (cellId, s3) =>
                  ({ s3 with
                      storeMap := setA s3.storeMap host (listSetPad store index cellId)
                      trace := s3.trace ++ [.stateCell cellId] }, none)

/-- `useMemo(fn)` (`hooks.ts`): guard, then construct a fresh
`Signal.Computed`. The computed cell is opaque to this model; only its
fresh identity (allocated from the counter, so distinct from every other
object) matters. -/
def useMemoS (s : FState) : FState × Option Err :=
  match s.currentRenderElement with
  | none => (s, some (.outsideRender "useMemo"))
  | some _ =>
      match signalCtor s with
      | none => (s, some .noSignal)
      | some _ => ({ s with nextId := s.nextId + 1 }, none)

/-- `useCallback(fn)` (`hooks.ts`): guard, then wrap `fn` in a fresh
`Signal.Computed`. -/
def useCallbackS (s : FState) : FState × Option Err :=
  match s.currentRenderElement with
  | none => (s, some (.outsideRender "useCallback"))
  | some _ =>
      match signalCtor s with
      | none => (s, some .noSignal)
      | some _ => ({ s with nextId := s.nextId + 1 }, none)

/-- `useReducer(reducer, initial)` (`hooks.ts`) delegates its slot to
`useState(initial)`; the dispatch closure is write-through to the same
cell and adds no state of its own. -/
def useReducerS (initial : JSVal) (s : FState) : FState × Option Err :=
  useStateS initial s

/-- `useEffect(function_)` (`hooks.ts`): guard; fetch-or-create the host's
effect array; push a record whose `run` will execute the body and whose
`cleanup` field is absent. -/
def useEffectS (lbl : Nat) (thr : Bool) (ret : Option Nat) (s : FState) :
    FState × Option Err :=
  match s.currentRenderElement with
  | none => (s, some (.outsideRender "useEffect"))
  | some host =>
      let effects := (lookupA s.effectMap host).getD []
      ({ s with
          effectMap :=
            setA s.effectMap host
              (effects ++ [{ lbl := lbl, throwsFlag := thr, ret := ret, cleanup := none }]) },
        none)

/-- `onCleanup(function_)` (`hooks.ts`): `useEffect(() => function_)` — an
effect whose body does nothing (never throws) and returns `function_`. -/
def onCleanupS (lbl : Nat) (f : Nat) (s : FState) : FState × Option Err :=
  useEffectS lbl false (some f) s

/-- `provideContext(key, value)` (`context.ts`): guard the host; guard that
the context stack was initialised (the empty array is truthy, so only a
missing entry trips the invariant); copy the top frame (or start empty),
overlay `key.id -> value`, push. -/
def provideContextS (key : ContextKey) (cellId : Nat) (s : FState) :
    FState × Option Err :=
  match s.currentRenderElement with
  | none => (s, some (.outsideRender "provideContext"))
  | some host =>
      match lookupA s.contextStackMap host with
      | none => (s, some .stackInvariant)
      | some stack =>
          let freshFrame := setA (stack.getLast?.getD []) key.id cellId
          ({ s with
              contextStackMap := setA s.contextStackMap host (stack ++ [freshFrame]) },
            none)

/-- `useContext(key)` (`context.ts`): guard the host; look only at the top
frame (`stack[stack.length - 1]`, `undefined` when the stack is absent or
empty); return the frame's cell when the key is present, else the key's
default cell when one was registered, else throw the missing-context
error. -/
def useContextS (key : ContextKey) (s : FState) : FState × Option Err :=
  match s.currentRenderElement with
  | none => (s, some (.outsideRender "useContext"))
  | some host =>
      let top := (lookupA s.contextStackMap host).bind List.getLast?
      match top.bind (fun frame => lookupA frame key.id) with
      | some cellId => ({ s with trace := s.trace ++ [.ctxCell cellId] }, none)
      | none =>
          match key.dflt with
          | some d => ({ s with trace := s.trace ++ [.ctxCell d] }, none)
          | none => (s, some .missingContext)

/-- `createContextKey(defaultValue, name)` (`context.ts`): allocates a
fresh `Symbol` identity; when `defaultValue` is not `undefined`, also
constructs exactly one default `Signal.State` cell held by the key. -/
def createContextKeyS (defaultValue : JSVal) (s : FState) :
    Except Err (ContextKey × FState) :=
  let symId := s.nextId
  let s1 := { s with nextId := s.nextId + 1 }
  match defaultValue with
  | none => .ok ({ id := symId, dflt := none }, s1)
  | some dv =>
      match newStateCell (some dv) s1 with
      | .error e => .error e
      | .ok (cellId, s2) => .ok ({ id := symId, dflt := some cellId }, s2)

/-- JS nullish coalescing `a ?? b` on possibly-`undefined` values. -/
def jsCoalesce (a b : JSVal) : JSVal :=
  match a with
  | some v => some v
  | none => b

/-!
Render programs: the embedded language of render-function bodies.
A command is one hook/context call; `provider` is an application of the
`Provider` component built by `createContext` (closing over its key and
`defaultValue`); `nestedScope` is an explicit nested `withFunctional`
call (with `none` for the defaulted fresh host); `throwUser` is a render
body that raises.
-/
inductive Cmd where
  | useState (initial : JSVal)
  | useEffect (lbl : Nat) (thr : Bool) (ret : Option Nat)
  | onCleanup (lbl : Nat) (f : Nat)
  | provideContext (key : ContextKey) (cellId : Nat)
  | useContext (key : ContextKey)
  | provider (key : ContextKey) (defaultValue : JSVal) (value : JSVal) (children : List Cmd)
  | nestedScope (hostOpt : Option Nat) (body : List Cmd)
  | throwUser
deriving Repr

/-- A render-function body: the sequence of calls it makes. -/
abbrev Prog := List Cmd

/-- The entry half of `withFunctional` (`functional.ts`): default the host
to a fresh empty object, save the previously current host, make `host`
current, reset its hook cursor to 0 and its context stack to empty.
Returns `(host, saved previous, new state)`. -/
def scopeEnter (hostOpt : Option Nat) (s : FState) : Nat × Option Nat × FState :=
  let (host, s0) :=
    match hostOpt with
    | some h => (h, s)
    | none => (s.nextId, { s with nextId := s.nextId + 1 })
  (host, s0.currentRenderElement,
    { s0 with
        currentRenderElement := some host
        indexMap := setA s0.indexMap host 0
        contextStackMap := setA s0.contextStackMap host [] })

/-- The exit half of `withFunctional`: on success, `queueMicrotask` the
flush of `host`'s queue; in both cases (the `finally`), restore the saved
previously-current host; a raised exception propagates. -/
def scopeExit (saved : Option Nat) (host : Nat) (r : FState × Option Err) :
    FState × Option Err :=
  match r with
  | (s, none) =>
      ({ s with micro := s.micro ++ [host], currentRenderElement := saved }, none)
  | (s, some e) => ({ s with currentRenderElement := saved }, some e)

/-!
Interpreter for commands and programs. Each hook command runs the
state function embedded from the source; `provider` follows
`context.ts`: build the cell from `value ?? defaultValue`, then run
`withFunctional(() => { provideContext(context, signal); return children(); })`
with no host argument; `nestedScope` is a literal nested `withFunctional`.
A raised exception aborts the rest of the program.
-/
mutual
def runCmd (c : Cmd) (s : FState) : FState × Option Err :=
  match c with
  | .useState initial => useStateS initial s
  | .useEffect lbl thr ret => useEffectS lbl thr ret s
  | .onCleanup lbl f => onCleanupS lbl f s
  | .provideContext key cellId => provideContextS key cellId s
  | .useContext key => useContextS key s
  | .provider key defaultValue value children =>
      match newStateCell (jsCoalesce value defaultValue) s with
      | .error e => (s, some e)
      | .ok (cellId, s1) =>
          let (host, saved, s2) := scopeEnter none s1
          let r :=
            match provideContextS key cellId s2 with
            | (s3, some e) => (s3, some e)
            | (s3, none) => runProg children s3
          scopeExit saved host r
  | .nestedScope hostOpt body =>
      let (host, saved, s1) := scopeEnter hostOpt s
      scopeExit saved host (runProg body s1)
  | .throwUser => (s, some .userThrow)

def runProg (p : Prog) (s : FState) : FState × Option Err :=
  match p with
  | [] => (s, none)
  | c :: rest =>
      match runCmd c s with
      | (s1, some e) => (s1, some e)
      | (s1, none) => runProg rest s1
end

/-- `withFunctional(renderFunction, host)` (`functional.ts`): the render
scope controller — enter the scope, run the render function, exit
(scheduling the flush on success, restoring the previous host always). -/
def withFunctional (p : Prog) (hostOpt : Option Nat) (s : FState) :
    FState × Option Err :=
  let (host, saved, s1) := scopeEnter hostOpt s
  scopeExit saved host (runProg p s1)

/-- `arr.at(-1).cleanup = c` — the assignment performed inside an effect
record's `run` when the body returned a callable: mutate the LAST record
of the captured array. -/
def setCleanupLast (arr : List EffectRec) (c : Nat) : List EffectRec :=
  match arr.reverse with
  | [] => []
  | last :: rest => (({ last with cleanup := some c }) :: rest).reverse

/-- The `for (const effect of effects) effect?.run()` loop of the flush
microtask. `pending` is the suffix of records still to run (a record's run
data never changes during the loop; only `cleanup` fields of `arr`, the
live array, are mutated). Each run executes the body (traced), and — when
the body returned a callable — stores it as the cleanup of `arr`'s last
record. A throwing body propagates out of the loop at once. Returns the
mutated array, the state, and the escaping exception if any. -/
def flushLoop (pending : List EffectRec) (arr : List EffectRec) (s : FState) :
    List EffectRec × FState × Option Err :=
  match pending with
  | [] => (arr, s, none)
  | rec :: rest =>
      let s1 := { s with trace := s.trace ++ [.ran rec.lbl] }
      if rec.throwsFlag then (arr, s1, some .effectThrew)
      else
        let arr2 :=
          match rec.ret with
          | some c => setCleanupLast arr c
          | none => arr
        flushLoop rest arr2 s1

/-- The whole flush microtask queued by `withFunctional` for `host`:
look up the queue (skip when absent), run the loop, and — only when the
loop finished without an exception — delete the host's queue entry. An
exception skips the `delete` (there is no `finally`), leaving the mutated
array in the map, and escapes the microtask. -/
def flushHost (host : Nat) (s : FState) : FState × Option Err :=
  match lookupA s.effectMap host with
  | none => (s, none)
  | some effects =>
      match flushLoop effects effects s with
      | (arr, s1, some e) =>
          ({ s1 with effectMap := setA s1.effectMap host arr }, some e)
      | (_, s1, none) =>
          ({ s1 with effectMap := deleteA s1.effectMap host }, none)

/-- Drain a list of pending flush microtasks in FIFO order; an exception
escaping one microtask is reported by the host environment but does not
stop the queue. -/
def drainList (hosts : List Nat) (s : FState) : FState :=
  match hosts with
  | [] => s
  | h :: rest => drainList rest (flushHost h s).1

/-- Run every pending microtask (the event-loop checkpoint right after the
synchronous render call returns, before any other scheduled work). -/
def drainMicro (s : FState) : FState :=
  drainList s.micro { s with micro := [] }

/-- A render body that is a straight sequence of `useState` calls, one per
listed initial value. -/
def statesProg : List JSVal → Prog
  | [] => []
  | i :: rest => .useState i :: statesProg rest

/-- A render body that is a straight sequence of `useEffect` calls, one
per `(label, throws?, returned cleanup)` triple. -/
def effectsProg : List (Nat × Bool × Option Nat) → Prog
  | [] => []
  | (l, t, r) :: rest => .useEffect l t r :: effectsProg rest

/-- The `useState` cells handed back so far, in order. -/
def stateCells (tr : List Ev) : List Nat :=
  tr.filterMap fun e =>
    match e with
    | .stateCell i => some i
    | _ => none

/-- The effect bodies executed so far, in order. -/
def ranEvents (tr : List Ev) : List Nat :=
  tr.filterMap fun e =>
    match e with
    | .ran l => some l
    | _ => none

/-- Allocation of `n` consecutive identities starting at `base`. -/
def allocIds (base : Nat) : Nat → List Nat
  | 0 => []
  | n + 1 => base :: allocIds (base + 1) n

/-- The heap segment appended by a run of slot-creating `useState` calls:
one cell per initial value, ids consecutive from `base`, all built by
constructor `c`. -/
def allocCells (c base : Nat) : List JSVal → List (Nat × Cell)
  | [] => []
  | i :: rest => (base, { ctor := c, value := i }) :: allocCells c (base + 1) rest

/-- The cells sitting in slots `k, k+1, ...` of a store (0 for a hole,
which populated runs never hit). -/
def slotIds (store : List (Option Nat)) (k : Nat) : Nat → List Nat
  | 0 => []
  | n + 1 => (store.getD k none).getD 0 :: slotIds store (k + 1) n

theorem lookupA_setA_self {α : Type} (m : List (Nat × α)) (k : Nat) (v : α) :
    lookupA (setA m k v) k = some v := by
  induction m with
  | nil => simp [setA, lookupA]
  | cons kv rest ih =>
      obtain ⟨k', w⟩ := kv
      by_cases h : k' = k <;> simp [setA, lookupA, h, ih]

theorem lookupA_setA_ne {α : Type} (m : List (Nat × α)) (k k' : Nat) (v : α)
    (h : k' ≠ k) : lookupA (setA m k' v) k = lookupA m k := by
  induction m with
  | nil => simp [setA, lookupA, h]
  | cons kv rest ih =>
      obtain ⟨k0, w⟩ := kv
      by_cases h0 : k0 = k'
      · subst h0; simp [setA, lookupA, h]
      · simp [setA, lookupA, h0, ih]

theorem setA_setA {α : Type} (m : List (Nat × α)) (k : Nat) (v w : α) :
    setA (setA m k v) k w = setA m k w := by
  induction m with
  | nil => simp [setA]
  | cons kv rest ih =>
      obtain ⟨k0, u⟩ := kv
      by_cases h : k0 = k <;> simp [setA, h, ih]

theorem setA_id {α : Type} (m : List (Nat × α)) (k : Nat) (v : α)
    (h : lookupA m k = some v) : setA m k v = m := by
  induction m with
  | nil => simp [lookupA] at h
  | cons kv rest ih =>
      obtain ⟨k0, u⟩ := kv
      by_cases h0 : k0 = k
      · subst h0
        simp [lookupA] at h
        simp [setA, h]
      · simp [lookupA, h0] at h
        simp [setA, h0, ih h]

theorem lookupA_append_left {α : Type} (m m' : List (Nat × α)) (k : Nat) (v : α)
    (h : lookupA m k = some v) : lookupA (m ++ m') k = some v := by
  induction m with
  | nil => simp [lookupA] at h
  | cons kv rest ih =>
      obtain ⟨k0, u⟩ := kv
      by_cases h0 : k0 = k
      · subst h0; simp [lookupA] at h ⊢; exact h
      · simp [lookupA, h0] at h ⊢; exact ih h

theorem allocIds_length (base n : Nat) : (allocIds base n).length = n := by
  induction n generalizing base with
  | zero => rfl
  | succ n ih => simp [allocIds, ih]

theorem allocIds_getD (base n j : Nat) (h : j < n) :
    (allocIds base n).getD j 0 = base + j := by
  induction n generalizing base j with
  | zero => omega
  | succ n ih =>
      cases j with
      | zero => simp [allocIds]
      | succ j =>
          have hj : j < n := by omega
          have h2 := ih (base + 1) j hj
          have harith : base + (j + 1) = base + 1 + j := by omega
          rw [harith]
          simpa [allocIds, List.getD_cons_succ] using h2

theorem allocIds_map_some_getD (base n j : Nat) (h : j < n) :
    ((allocIds base n).map some).getD j none = some (base + j) := by
  induction n generalizing base j with
  | zero => omega
  | succ n ih =>
      cases j with
      | zero => simp [allocIds]
      | succ j =>
          have hj : j < n := by omega
          have h2 := ih (base + 1) j hj
          have harith : base + (j + 1) = base + 1 + j := by omega
          rw [harith]
          simpa [allocIds, List.getD_cons_succ] using h2

theorem allocCells_lookup (c base : Nat) (inits : List JSVal) (j : Nat)
    (h : j < inits.length) :
    lookupA (allocCells c base inits) (base + j) =
      some { ctor := c, value := inits.getD j none } := by
  induction inits generalizing base j with
  | nil => simp at h
  | cons i rest ih =>
      cases j with
      | zero => simp [allocCells, lookupA]
      | succ j =>
          have hj : j < rest.length := by simp at h; omega
          have hne : base ≠ base + (j + 1) := by omega
          have := ih (base + 1) j hj
          simp [allocCells, lookupA, hne]
          have harith : base + 1 + j = base + (j + 1) := by omega
          rw [← harith]
          simpa using this

theorem listSetPad_append (l : List (Option Nat)) (v : Nat) :
    listSetPad l l.length v = l ++ [some v] := by
  simp [listSetPad]

theorem useStateS_hit (i : JSVal) (s : FState) (host k cid : Nat)
    (store : List (Option Nat))
    (hcur : s.currentRenderElement = some host)
    (hstore : lookupA s.storeMap host = some store)
    (hidx : lookupA s.indexMap host = some k)
    (hslot : store.getD k none = some cid) :
    useStateS i s =
      ({ s with
          indexMap := setA s.indexMap host (k + 1)
          trace := s.trace ++ [.stateCell cid] }, none) := by
  have hslot' := hslot
  rw [List.getD_eq_getElem?_getD] at hslot'
  simp [useStateS, hcur, hstore, hidx, hslot']

theorem useStateS_miss (i : JSVal) (s : FState) (host k c : Nat)
    (store : List (Option Nat))
    (hcur : s.currentRenderElement = some host)
    (hstore : lookupA s.storeMap host = some store)
    (hidx : lookupA s.indexMap host = some k)
    (hslot : store.getD k none = none)
    (hc : signalCtor s = some c) :
    useStateS i s =
      ({ s with
          storeMap := setA s.storeMap host (listSetPad store k s.nextId)
          indexMap := setA s.indexMap host (k + 1)
          heap := s.heap ++ [(s.nextId, { ctor := c, value := i })]
          nextId := s.nextId + 1
          trace := s.trace ++ [.stateCell s.nextId] }, none) := by
  have hslot' := hslot
  rw [List.getD_eq_getElem?_getD] at hslot'
  cases hm : s.manualSignalCtor with
  | some m =>
      have hcm : m = c := by
        rw [signalCtor, hm] at hc
        exact Option.some.inj hc
      subst hcm
      simp [useStateS, hcur, hstore, hidx, hslot', newStateCell, signalCtor, hm]
  | none =>
      have hg : s.globalSignal = some c := by
        rw [signalCtor, hm] at hc
        exact hc
      simp [useStateS, hcur, hstore, hidx, hslot', newStateCell, signalCtor, hm, hg]

/-- Pre-creating a missing store entry as the empty array does not change
what `useState` does (the source's fetch-or-create step). -/
theorem useStateS_norm (i : JSVal) (s : FState) (host : Nat)
    (hcur : s.currentRenderElement = some host)
    (hstore : lookupA s.storeMap host = none) :
    useStateS i s = useStateS i { s with storeMap := setA s.storeMap host [] } := by
  simp [useStateS, hcur, hstore, lookupA_setA_self, setA_setA, newStateCell]

/-- Running a straight sequence of `useState` calls with the cursor at the
end of the store (every remaining slot unpopulated): each call creates a
fresh cell; the store gains the consecutive ids, the heap the seeded
cells, and the trace reports the fresh ids in call order. -/
theorem runProg_states_create (inits : List JSVal) (s : FState) (host k c : Nat)
    (store : List (Option Nat))
    (hcur : s.currentRenderElement = some host)
    (hstore : lookupA s.storeMap host = some store)
    (hidx : lookupA s.indexMap host = some k)
    (hlen : store.length = k)
    (hc : signalCtor s = some c) :
    runProg (statesProg inits) s =
      ({ s with
          storeMap := setA s.storeMap host (store ++ (allocIds s.nextId inits.length).map some)
          indexMap := setA s.indexMap host (k + inits.length)
          heap := s.heap ++ allocCells c s.nextId inits
          nextId := s.nextId + inits.length
          trace := s.trace ++ (allocIds s.nextId inits.length).map Ev.stateCell }, none) := by
  induction inits generalizing s k store with
  | nil =>
      simp [statesProg, runProg, setA_id _ _ _ hstore, setA_id _ _ _ hidx,
        allocIds, allocCells]
  | cons i rest ih =>
      have hslot : store.getD k none = none := by
        rw [List.getD_eq_getElem?_getD, List.getElem?_eq_none]
        · rfl
        · omega
      have hmiss := useStateS_miss i s host k c store hcur hstore hidx hslot hc
      have hpad : listSetPad store k s.nextId = store ++ [some s.nextId] := by
        rw [← hlen]; exact listSetPad_append store s.nextId
      rw [hpad] at hmiss
      simp only [statesProg, runProg, runCmd, hmiss]
      rw [ih _ (k + 1) (store ++ [some s.nextId])
        (by exact hcur) (by exact lookupA_setA_self _ _ _)
        (by exact lookupA_setA_self _ _ _) (by simp; omega) (by exact hc)]
      simp only [setA_setA, Prod.mk.injEq, and_true]
      have harith1 : s.nextId + 1 + rest.length = s.nextId + (rest.length + 1) := by omega
      have harith2 : k + 1 + rest.length = k + (rest.length + 1) := by omega
      simp [allocIds, allocCells, harith1, harith2, List.length_cons]

/-- Running a straight sequence of `useState` calls over already-populated
slots: no cell is created, the store and heap are untouched, the cursor
advances, and the trace reports the existing slot cells in slot order —
independently of the initial values passed on this render. -/
theorem runProg_states_reuse (inits : List JSVal) (s : FState) (host k : Nat)
    (store : List (Option Nat))
    (hcur : s.currentRenderElement = some host)
    (hstore : lookupA s.storeMap host = some store)
    (hidx : lookupA s.indexMap host = some k)
    (hpop : ∀ j, j < inits.length → (store.getD (k + j) none).isSome = true) :
    runProg (statesProg inits) s =
      ({ s with
          indexMap := setA s.indexMap host (k + inits.length)
          trace := s.trace ++ (slotIds store k inits.length).map Ev.stateCell }, none) := by
  induction inits generalizing s k with
  | nil =>
      simp [statesProg, runProg, setA_id _ _ _ hidx, slotIds]
  | cons i rest ih =>
      obtain ⟨cid, hcid⟩ : ∃ cid, store.getD k none = some cid := by
        have := hpop 0 (by simp)
        cases hgd : store.getD (k + 0) none with
        | none => rw [hgd] at this; simp at this
        | some cid => rw [Nat.add_zero] at hgd; exact ⟨cid, hgd⟩
      have hhit := useStateS_hit i s host k cid store hcur hstore hidx hcid
      simp only [statesProg, runProg, runCmd, hhit]
      rw [ih _ (k + 1) (by exact hcur) (by exact hstore)
        (by exact lookupA_setA_self _ _ _)
        (by intro j hj; have := hpop (j + 1) (by simp; omega)
            have harith : k + (j + 1) = k + 1 + j := by omega
            rw [harith] at this; exact this)]
      simp only [setA_setA, Prod.mk.injEq, and_true]
      have harith2 : k + 1 + rest.length = k + (rest.length + 1) := by omega
      have hcid' := hcid
      rw [List.getD_eq_getElem?_getD] at hcid'
      simp [slotIds, hcid', harith2, List.length_cons]

theorem runProg_append (p q : Prog) (s : FState) :
    runProg (p ++ q) s =
      match runProg p s with
      | (s1, some e) => (s1, some e)
      | (s1, none) => runProg q s1 := by
  induction p generalizing s with
  | nil => simp [runProg]
  | cons c rest ih =>
      simp only [List.cons_append, runProg]
      cases hc : runCmd c s with
      | mk s1 err =>
          cases err with
          | none => simp [ih]
          | some e => simp

theorem statesProg_append (a b : List JSVal) :
    statesProg (a ++ b) = statesProg a ++ statesProg b := by
  induction a with
  | nil => simp [statesProg]
  | cons i rest ih => simp [statesProg, ih]

/-- The effect records queued by a list of effect-hook calls described by
`(label, throws?, returned cleanup)` triples. -/
def recsOf (specs : List (Nat × Bool × Option Nat)) : List EffectRec :=
  specs.map fun x => { lbl := x.1, throwsFlag := x.2.1, ret := x.2.2, cleanup := none }

theorem useEffectS_eq (lbl : Nat) (thr : Bool) (ret : Option Nat) (s : FState)
    (host : Nat) (hcur : s.currentRenderElement = some host) :
    useEffectS lbl thr ret s =
      ({ s with
          effectMap := setA s.effectMap host
            (((lookupA s.effectMap host).getD []) ++
              [{ lbl := lbl, throwsFlag := thr, ret := ret, cleanup := none }]) },
        none) := by
  simp [useEffectS, hcur]

/-- A straight sequence of effect hooks appends its records, in call
order, to the host's existing queue. -/
theorem runProg_effects (specs : List (Nat × Bool × Option Nat)) (s : FState)
    (host : Nat) (q0 : List EffectRec)
    (hcur : s.currentRenderElement = some host)
    (hq : lookupA s.effectMap host = some q0) :
    runProg (effectsProg specs) s =
      ({ s with effectMap := setA s.effectMap host (q0 ++ recsOf specs) }, none) := by
  induction specs generalizing s q0 with
  | nil => simp [effectsProg, runProg, recsOf, setA_id _ _ _ hq]
  | cons x rest ih =>
      obtain ⟨l, t, r⟩ := x
      have he := useEffectS_eq l t r s host hcur
      rw [hq] at he
      simp only [effectsProg, runProg, runCmd, he, Option.getD_some]
      rw [ih _ (q0 ++ [{ lbl := l, throwsFlag := t, ret := r, cleanup := none }])
        (by exact hcur) (by exact lookupA_setA_self _ _ _)]
      simp [setA_setA, recsOf]

/-- Same, starting from a host with no queue entry yet: the entry is
created and holds exactly the calls' records in order. -/
theorem runProg_effects_fresh (specs : List (Nat × Bool × Option Nat)) (s : FState)
    (host : Nat)
    (hcur : s.currentRenderElement = some host)
    (hq : lookupA s.effectMap host = none)
    (hne : specs ≠ []) :
    runProg (effectsProg specs) s =
      ({ s with effectMap := setA s.effectMap host (recsOf specs) }, none) := by
  cases specs with
  | nil => exact absurd rfl hne
  | cons x rest =>
      obtain ⟨l, t, r⟩ := x
      have he := useEffectS_eq l t r s host hcur
      rw [hq] at he
      simp only [effectsProg, runProg, runCmd, he, Option.getD_none, List.nil_append]
      rw [runProg_effects rest _ host [{ lbl := l, throwsFlag := t, ret := r, cleanup := none }]
        (by exact hcur) (by exact lookupA_setA_self _ _ _)]
      simp [setA_setA, recsOf]

/-- The run data of an effect record: everything its `run` closure reads
(the stored `cleanup` field is written but never read by a flush). -/
def runData (r : EffectRec) : Nat × Bool × Option Nat :=
  (r.lbl, r.throwsFlag, r.ret)

/-- The accumulated `at(-1)`-cleanup mutations performed by running the
given records over the live array `arr`. -/
def applyCleanups (arr : List EffectRec) : List EffectRec → List EffectRec
  | [] => arr
  | r :: rest =>
      applyCleanups
        (match r.ret with
         | some c => setCleanupLast arr c
         | none => arr) rest

theorem setCleanupLast_concat (l : List EffectRec) (x : EffectRec) (c : Nat) :
    setCleanupLast (l ++ [x]) c = l ++ [{ x with cleanup := some c }] := by
  simp [setCleanupLast]

theorem setCleanupLast_runData (l : List EffectRec) (c : Nat) :
    (setCleanupLast l c).map runData = l.map runData := by
  rcases List.eq_nil_or_concat l with h | ⟨l', x, h⟩
  · simp [h, setCleanupLast]
  · subst h
    simp [setCleanupLast_concat, runData]

theorem applyCleanups_append (arr : List EffectRec) (l1 l2 : List EffectRec) :
    applyCleanups arr (l1 ++ l2) = applyCleanups (applyCleanups arr l1) l2 := by
  induction l1 generalizing arr with
  | nil => simp [applyCleanups]
  | cons r rest ih => simp [applyCleanups, ih]

theorem applyCleanups_ret_none (arr : List EffectRec) (l : List EffectRec)
    (h : ∀ x ∈ l, x.ret = none) : applyCleanups arr l = arr := by
  induction l generalizing arr with
  | nil => rfl
  | cons r rest ih =>
      have hr : r.ret = none := h r (by simp)
      simp [applyCleanups, hr]
      exact ih _ (fun x hx => h x (by simp [hx]))

theorem applyCleanups_runData (arr : List EffectRec) (l : List EffectRec) :
    (applyCleanups arr l).map runData = arr.map runData := by
  induction l generalizing arr with
  | nil => rfl
  | cons r rest ih =>
      cases hr : r.ret with
      | none => simp [applyCleanups, hr, ih]
      | some c => simp [applyCleanups, hr, ih, setCleanupLast_runData]

/-- A flush loop over non-throwing records: every body runs in queue
order (traced), the mutations are the accumulated last-record cleanup
writes, and no exception escapes. -/
theorem flushLoop_noThrow (pending arr : List EffectRec) (s : FState)
    (h : ∀ r ∈ pending, r.throwsFlag = false) :
    flushLoop pending arr s =
      (applyCleanups arr pending,
        { s with trace := s.trace ++ pending.map (fun r => Ev.ran r.lbl) }, none) := by
  induction pending generalizing arr s with
  | nil => simp [flushLoop, applyCleanups]
  | cons rec rest ih =>
      have hr : rec.throwsFlag = false := h rec (by simp)
      simp only [flushLoop, hr, Bool.false_eq_true, if_false]
      rw [ih _ _ (fun x hx => h x (by simp [hx]))]
      simp [applyCleanups]

/-- A flush loop that reaches a throwing record: the bodies before it run
in order, the thrower's body runs and its exception escapes at once —
records after it never run. -/
theorem flushLoop_throw (a : List EffectRec) (t : EffectRec) (b : List EffectRec)
    (arr : List EffectRec) (s : FState)
    (ha : ∀ r ∈ a, r.throwsFlag = false)
    (ht : t.throwsFlag = true) :
    flushLoop (a ++ t :: b) arr s =
      (applyCleanups arr a,
        { s with trace := s.trace ++ a.map (fun r => Ev.ran r.lbl) ++ [Ev.ran t.lbl] },
        some .effectThrew) := by
  induction a generalizing arr s with
  | nil => simp [flushLoop, ht, applyCleanups]
  | cons rec rest ih =>
      have hr : rec.throwsFlag = false := ha rec (by simp)
      simp only [List.cons_append, flushLoop, hr, Bool.false_eq_true, if_false,
        List.append_eq]
      rw [ih _ _ (fun x hx => ha x (by simp [hx]))]
      simp [applyCleanups]

theorem stateCells_append (t1 t2 : List Ev) :
    stateCells (t1 ++ t2) = stateCells t1 ++ stateCells t2 := by
  simp [stateCells]

theorem stateCells_map_stateCell (l : List Nat) :
    stateCells (l.map Ev.stateCell) = l := by
  induction l with
  | nil => rfl
  | cons x rest ih =>
      simp only [stateCells, List.map_cons, List.filterMap_cons] at ih ⊢
      simp [ih]

theorem ranEvents_append (t1 t2 : List Ev) :
    ranEvents (t1 ++ t2) = ranEvents t1 ++ ranEvents t2 := by
  simp [ranEvents]

theorem ranEvents_map_stateCell (l : List Nat) :
    ranEvents (l.map Ev.stateCell) = [] := by
  induction l with
  | nil => rfl
  | cons x rest ih =>
      simp only [ranEvents, List.map_cons, List.filterMap_cons] at ih ⊢
      simp [ih]

theorem ranEvents_map_ran (l : List EffectRec) :
    ranEvents (l.map (fun r => Ev.ran r.lbl)) = l.map EffectRec.lbl := by
  induction l with
  | nil => rfl
  | cons x rest ih =>
      simp only [ranEvents, List.map_cons, List.filterMap_cons] at ih ⊢
      simp [ih]

/-- Claim C7: every state/memo/callback/reducer/effect/context operation
invoked while the Current Host is unset fails synchronously with its
descriptive "called outside render" error and returns the state it was
given completely unchanged — no slot store, slot cursor, context stack or
effect queue is touched. -/
theorem hooks_outside_render_fail_pure (s : FState) (i : JSVal) (lbl f cellId : Nat)
    (thr : Bool) (ret : Option Nat) (key : ContextKey)
    (h : s.currentRenderElement = none) :
    useStateS i s = (s, some (.outsideRender "useState")) ∧
    useMemoS s = (s, some (.outsideRender "useMemo")) ∧
    useCallbackS s = (s, some (.outsideRender "useCallback")) ∧
    useReducerS i s = (s, some (.outsideRender "useState")) ∧
    useEffectS lbl thr ret s = (s, some (.outsideRender "useEffect")) ∧
    onCleanupS lbl f s = (s, some (.outsideRender "useEffect")) ∧
    provideContextS key cellId s = (s, some (.outsideRender "provideContext")) ∧
    useContextS key s = (s, some (.outsideRender "useContext")) := by
  refine ⟨?_, ?_, ?_, ?_, ?_, ?_, ?_, ?_⟩ <;>
    simp [useStateS, useMemoS, useCallbackS, useReducerS, useEffectS, onCleanupS,
      provideContextS, useContextS, h]

/-- Claim C7 witness at a concrete state. -/
theorem hooks_outside_render_fail_pure_witness :
    initState.currentRenderElement = none ∧
    (useStateS none initState = (initState, some (.outsideRender "useState")) ∧
      useMemoS initState = (initState, some (.outsideRender "useMemo")) ∧
      useCallbackS initState = (initState, some (.outsideRender "useCallback")) ∧
      useReducerS none initState = (initState, some (.outsideRender "useState")) ∧
      useEffectS 0 false none initState = (initState, some (.outsideRender "useEffect")) ∧
      onCleanupS 0 0 initState = (initState, some (.outsideRender "useEffect")) ∧
      provideContextS { id := 0, dflt := none } 0 initState =
        (initState, some (.outsideRender "provideContext")) ∧
      useContextS { id := 0, dflt := none } initState =
        (initState, some (.outsideRender "useContext"))) :=
  ⟨rfl, hooks_outside_render_fail_pure initState none 0 0 0 false none
    { id := 0, dflt := none } rfl⟩

/-- Claim C9: the `Signal` getter prefers the manually injected
constructor over the `globalThis.Signal` binding: whenever
`setSignalConstructor` was used, every constructed cell is built by the
injected constructor even if a global binding is also present, and the
setup error is raised exactly when both registration paths are absent. -/
theorem signal_ctor_resolution (s : FState) (m : Nat) (v : JSVal) :
    (s.manualSignalCtor = some m →
      signalCtor s = some m ∧
      newStateCell v s =
        .ok (s.nextId,
          { s with
              heap := s.heap ++ [(s.nextId, { ctor := m, value := v })]
              nextId := s.nextId + 1 })) ∧
    (s.manualSignalCtor = none → signalCtor s = s.globalSignal) ∧
    (newStateCell v s = .error .noSignal ↔
      s.manualSignalCtor = none ∧ s.globalSignal = none) ∧
    signalCtor (setSignalConstructor m s) = some m := by
  refine ⟨?_, ?_, ?_, ?_⟩
  · intro hm
    constructor
    · simp [signalCtor, hm]
    · simp [newStateCell, signalCtor, hm]
  · intro hm
    simp [signalCtor, hm]
  · cases hm : s.manualSignalCtor with
    | some c => simp [newStateCell, signalCtor, hm]
    | none =>
        cases hg : s.globalSignal with
        | some g => simp [newStateCell, signalCtor, hm, hg]
        | none => simp [newStateCell, signalCtor, hm, hg]
  · simp [signalCtor, setSignalConstructor]

/-- Claim C9 witness: manual constructor 3 injected while global
constructor 4 is bound — resolution picks 3; and the error case. -/
theorem signal_ctor_resolution_witness :
    let s : FState := { initState with manualSignalCtor := some 3, globalSignal := some 4 }
    (s.manualSignalCtor = some 3 →
      signalCtor s = some 3 ∧
      newStateCell (some 7) s =
        .ok (s.nextId,
          { s with
              heap := s.heap ++ [(s.nextId, { ctor := 3, value := some 7 })]
              nextId := s.nextId + 1 })) ∧
    (s.manualSignalCtor = none → signalCtor s = s.globalSignal) ∧
    (newStateCell (some 7) s = .error .noSignal ↔
      s.manualSignalCtor = none ∧ s.globalSignal = none) ∧
    signalCtor (setSignalConstructor 3 s) = some 3 :=
  signal_ctor_resolution { initState with manualSignalCtor := some 3, globalSignal := some 4 } 3 (some 7)

/-- Claim C8: during an active render, `useContext(key)` reads only the
top frame of the current host's Context Stack: a hit there returns that
frame's cell; on a miss it returns the key's registered default cell; with
no default it throws the missing-context error — and it throws exactly
when the key misses the top frame and no default was registered. -/
theorem useContext_top_frame (s : FState) (key : ContextKey) (host : Nat)
    (h : s.currentRenderElement = some host) :
    (∀ cellId,
      ((lookupA s.contextStackMap host).bind List.getLast?).bind
          (fun frame => lookupA frame key.id) = some cellId →
      useContextS key s = ({ s with trace := s.trace ++ [.ctxCell cellId] }, none)) ∧
    (∀ d,
      ((lookupA s.contextStackMap host).bind List.getLast?).bind
          (fun frame => lookupA frame key.id) = none → key.dflt = some d →
      useContextS key s = ({ s with trace := s.trace ++ [.ctxCell d] }, none)) ∧
    (((lookupA s.contextStackMap host).bind List.getLast?).bind
          (fun frame => lookupA frame key.id) = none → key.dflt = none →
      useContextS key s = (s, some .missingContext)) ∧
    ((useContextS key s).2 = some .missingContext ↔
      ((lookupA s.contextStackMap host).bind List.getLast?).bind
          (fun frame => lookupA frame key.id) = none ∧ key.dflt = none) := by
  refine ⟨?_, ?_, ?_, ?_⟩
  · intro cellId hhit
    simp [useContextS, h, hhit]
  · intro d hmiss hd
    simp [useContextS, h, hmiss, hd]
  · intro hmiss hd
    simp [useContextS, h, hmiss, hd]
  · cases hhit : ((lookupA s.contextStackMap host).bind List.getLast?).bind
        (fun frame => lookupA frame key.id) with
    | some cellId => simp [useContextS, h, hhit]
    | none =>
        cases hd : key.dflt with
        | some d => simp [useContextS, h, hhit, hd]
        | none => simp [useContextS, h, hhit, hd]

/-- Claim C8 witness: a host whose top frame binds key 7 to cell 9 (hit);
a key with a default on an empty stack (fallback); a key with no default
on an empty stack (error), all at concrete states. -/
theorem useContext_top_frame_witness :
    let s : FState :=
      { initState with
          currentRenderElement := some 5
          contextStackMap := [(5, [[(7, 9)]])] }
    s.currentRenderElement = some 5 ∧
    ((∀ cellId,
      ((lookupA s.contextStackMap 5).bind List.getLast?).bind
          (fun frame => lookupA frame (ContextKey.mk 7 none).id) = some cellId →
      useContextS (ContextKey.mk 7 none) s =
        ({ s with trace := s.trace ++ [.ctxCell cellId] }, none)) ∧
    (∀ d,
      ((lookupA s.contextStackMap 5).bind List.getLast?).bind
          (fun frame => lookupA frame (ContextKey.mk 7 none).id) = none →
        (ContextKey.mk 7 none).dflt = some d →
      useContextS (ContextKey.mk 7 none) s =
        ({ s with trace := s.trace ++ [.ctxCell d] }, none)) ∧
    (((lookupA s.contextStackMap 5).bind List.getLast?).bind
          (fun frame => lookupA frame (ContextKey.mk 7 none).id) = none →
        (ContextKey.mk 7 none).dflt = none →
      useContextS (ContextKey.mk 7 none) s = (s, some .missingContext)) ∧
    ((useContextS (ContextKey.mk 7 none) s).2 = some .missingContext ↔
      ((lookupA s.contextStackMap 5).bind List.getLast?).bind
          (fun frame => lookupA frame (ContextKey.mk 7 none).id) = none ∧
        (ContextKey.mk 7 none).dflt = none)) :=
  ⟨rfl, useContext_top_frame _ (ContextKey.mk 7 none) 5 rfl⟩

/-- Claim C10: a context created with a default value constructs exactly
one default cell, at context-creation time; every `useContext` call that
falls back to the default — on any host, in any later state — returns that
identical cell, and a write through that shared cell is observed by every
reader of it. -/
theorem context_default_cell_shared (s : FState) (dv : Nat) (key : ContextKey)
    (s1 : FState) (h : createContextKeyS (some dv) s = .ok (key, s1)) :
    (∃ c, signalCtor s = some c ∧
      key = { id := s.nextId, dflt := some (s.nextId + 1) } ∧
      s1 = { s with
              nextId := s.nextId + 2
              heap := s.heap ++ [(s.nextId + 1, { ctor := c, value := some dv })] }) ∧
    (∀ s' host, s'.currentRenderElement = some host →
      ((lookupA s'.contextStackMap host).bind List.getLast?).bind
          (fun frame => lookupA frame key.id) = none →
      useContextS key s' =
        ({ s' with trace := s'.trace ++ [.ctxCell (s.nextId + 1)] }, none)) ∧
    (∀ s' v cell, lookupA s'.heap (s.nextId + 1) = some cell →
      getCell (s.nextId + 1) (setCell (s.nextId + 1) v s') =
        some { cell with value := v }) := by
  have hkey : signalCtor s = none →
      createContextKeyS (some dv) s = .error .noSignal := by
    intro hc
    have hc2 : signalCtor { s with nextId := s.nextId + 1 } = none := hc
    simp [createContextKeyS, newStateCell, hc2]
  cases hc : signalCtor s with
  | none => rw [hkey hc] at h; exact absurd h (by simp)
  | some c =>
      have hc2 : signalCtor { s with nextId := s.nextId + 1 } = some c := hc
      simp only [createContextKeyS, newStateCell, hc2] at h
      have hpair := Except.ok.inj h
      have hkeyEq : key = { id := s.nextId, dflt := some (s.nextId + 1) } :=
        (congrArg Prod.fst hpair).symm
      have hs1 : s1 = { s with
          nextId := s.nextId + 2
          heap := s.heap ++ [(s.nextId + 1, { ctor := c, value := some dv })] } :=
        (congrArg Prod.snd hpair).symm
      refine ⟨⟨c, rfl, hkeyEq, hs1⟩, ?_, ?_⟩
      · intro s' host hcur hmiss
        rw [hkeyEq] at hmiss
        simp only [ContextKey.mk.injEq] at hmiss
        simp [useContextS, hcur, hmiss, hkeyEq]
      · intro s' v cell hcell
        simp [getCell, setCell, hcell, lookupA_setA_self]

/-- Claim C10 witness: creating a context with default value 5 in a state
with an injected constructor; the default cell is cell 1; a defaulting
consumer on host 4 receives cell 1; writing 8 through it is read back. -/
theorem context_default_cell_shared_witness :
    let s : FState := { initState with manualSignalCtor := some 0 }
    createContextKeyS (some 5) s =
      .ok ({ id := 0, dflt := some 1 },
        { s with nextId := 2, heap := [(1, { ctor := 0, value := some 5 })] }) ∧
    ((∃ c, signalCtor s = some c ∧
      ContextKey.mk 0 (some 1) = { id := s.nextId, dflt := some (s.nextId + 1) } ∧
      ({ s with nextId := 2, heap := [(1, { ctor := 0, value := some 5 })] } : FState) =
        { s with
            nextId := s.nextId + 2
            heap := s.heap ++ [(s.nextId + 1, { ctor := c, value := some 5 })] }) ∧
    (∀ s' host, s'.currentRenderElement = some host →
      ((lookupA s'.contextStackMap host).bind List.getLast?).bind
          (fun frame => lookupA frame (ContextKey.mk 0 (some 1)).id) = none →
      useContextS (ContextKey.mk 0 (some 1)) s' =
        ({ s' with trace := s'.trace ++ [.ctxCell (s.nextId + 1)] }, none)) ∧
    (∀ s' v cell, lookupA s'.heap (s.nextId + 1) = some cell →
      getCell (s.nextId + 1) (setCell (s.nextId + 1) v s') =
        some { cell with value := v })) :=
  ⟨rfl,
    context_default_cell_shared { initState with manualSignalCtor := some 0 } 5
      (ContextKey.mk 0 (some 1))
      { initState with
          manualSignalCtor := some 0
          nextId := 2
          heap := [(1, { ctor := 0, value := some 5 })] }
      rfl⟩

/-- Claim C5: if the render function passed to `withFunctional` raises,
the previously current host is restored before the exception propagates
to the caller, no effect flush is scheduled by this call (the
`queueMicrotask` in the `try` body is skipped), and the effects appended
to the host's queue before the point of failure remain queued — the
queue is host-scoped and not rolled back. -/
theorem withFunctional_raise (p : Prog) (hostOpt : Option Nat) (s s2 : FState) (e : Err)
    (h : runProg p (scopeEnter hostOpt s).2.2 = (s2, some e)) :
    withFunctional p hostOpt s =
      ({ s2 with currentRenderElement := s.currentRenderElement }, some e) ∧
    (withFunctional p hostOpt s).1.currentRenderElement = s.currentRenderElement ∧
    (withFunctional p hostOpt s).1.micro = s2.micro ∧
    (withFunctional p hostOpt s).1.effectMap = s2.effectMap ∧
    (withFunctional p hostOpt s).2 = some e := by
  have hmain : withFunctional p hostOpt s =
      ({ s2 with currentRenderElement := s.currentRenderElement }, some e) := by
    cases hostOpt with
    | some hh =>
        simp only [scopeEnter] at h
        simp only [withFunctional, scopeEnter, scopeExit, h]
    | none =>
        simp only [scopeEnter] at h
        simp only [withFunctional, scopeEnter, scopeExit, h]
  refine ⟨hmain, ?_, ?_, ?_, ?_⟩ <;> rw [hmain]

/-- Claim C5 witness: a render on host 5 that queues one effect and then
raises — the effect stays queued, no flush is scheduled, the previous
current host (none) is restored, and the exception escapes. -/
theorem withFunctional_raise_witness :
    let p : Prog := [Cmd.useEffect 1 false none, Cmd.throwUser]
    let s2 : FState :=
      { initState with
          currentRenderElement := some 5
          indexMap := [(5, 0)]
          contextStackMap := [(5, [])]
          effectMap := [(5, [{ lbl := 1, throwsFlag := false, ret := none, cleanup := none }])] }
    runProg p (scopeEnter (some 5) initState).2.2 = (s2, some .userThrow) ∧
    (withFunctional p (some 5) initState =
      ({ s2 with currentRenderElement := initState.currentRenderElement }, some .userThrow) ∧
    (withFunctional p (some 5) initState).1.currentRenderElement =
      initState.currentRenderElement ∧
    (withFunctional p (some 5) initState).1.micro = s2.micro ∧
    (withFunctional p (some 5) initState).1.effectMap = s2.effectMap ∧
    (withFunctional p (some 5) initState).2 = some .userThrow) :=
  ⟨rfl, withFunctional_raise [Cmd.useEffect 1 false none, Cmd.throwUser] (some 5)
    initState _ .userThrow rfl⟩

/-- For a nonempty `useState` sequence, pre-creating the missing store
entry as the empty array does not change the run (the first call performs
that creation itself). -/
theorem runProg_states_norm (inits : List JSVal) (s : FState) (host : Nat)
    (hcur : s.currentRenderElement = some host)
    (hstore : lookupA s.storeMap host = none)
    (hne : inits ≠ []) :
    runProg (statesProg inits) s =
      runProg (statesProg inits) { s with storeMap := setA s.storeMap host [] } := by
  cases inits with
  | nil => exact absurd rfl hne
  | cons i rest =>
      have hn := useStateS_norm i s host hcur hstore
      simp only [statesProg, runProg, runCmd, hn]

set_option maxHeartbeats 4000000 in
/-- Claim C1 counterexample: a context Provider invoked during an active
render pass on host 100 does NOT run its nested scope on host 100: the
Context Frame lands on the freshly allocated host 1, `useState` inside
`children` writes host 1's slot store, and host 100's context stack stays
empty with no slot store at all. -/
theorem provider_same_host_cex :
    withFunctional
        [Cmd.provider { id := 7, dflt := none } (some 1) none [Cmd.useState (some 5)]]
        (some 100) { initState with manualSignalCtor := some 0 } =
      ({ manualSignalCtor := some 0
         globalSignal := none
         nextId := 3
         heap := [(0, { ctor := 0, value := some 1 }), (2, { ctor := 0, value := some 5 })]
         storeMap := [(1, [some 2])]
         indexMap := [(100, 0), (1, 1)]
         contextStackMap := [(100, []), (1, [[(7, 0)]])]
         effectMap := []
         currentRenderElement := none
         micro := [1, 100]
         trace := [Ev.stateCell 2] }, none) ∧
    lookupA ([(100, []), (1, [[(7, 0)]])] :
        List (Nat × List (List (Nat × Nat)))) 100 = some [] ∧
    lookupA ([(1, [some 2])] : List (Nat × List (Option Nat))) 100 = none ∧
    lookupA ([(100, []), (1, [[(7, 0)]])] :
        List (Nat × List (List (Nat × Nat)))) 1 = some [[(7, 0)]] ∧
    lookupA ([(1, [some 2])] : List (Nat × List (Option Nat))) 1 = some [some 2] := by
  refine ⟨by decide, by decide, by decide, by decide, by decide⟩

/-- Claim C1 amended: the Provider opens its nested render scope on a
FRESHLY allocated host (its `withFunctional` call passes no host, so the
defaulted `host = {}` is a new identity): the Context Frame is pushed
onto the fresh host's Context Stack, and `useState` hooks inside
`children()` read and write the fresh host's per-host storage; the
active host H's context stack and slot store are untouched, and H is
restored as current host afterwards. -/
theorem provider_opens_fresh_scope (s : FState) (key : ContextKey) (dv v : JSVal)
    (inits : List JSVal) (H c : Nat)
    (hcur : s.currentRenderElement = some H)
    (hc : signalCtor s = some c)
    (hne : inits ≠ [])
    (hH : H ≠ s.nextId + 1)
    (hstore : lookupA s.storeMap (s.nextId + 1) = none) :
    runCmd (.provider key dv v (statesProg inits)) s =
      ({ s with
          nextId := s.nextId + 2 + inits.length
          heap := s.heap ++ [(s.nextId, { ctor := c, value := jsCoalesce v dv })] ++
            allocCells c (s.nextId + 2) inits
          storeMap := setA s.storeMap (s.nextId + 1)
            ((allocIds (s.nextId + 2) inits.length).map some)
          indexMap := setA s.indexMap (s.nextId + 1) inits.length
          contextStackMap := setA s.contextStackMap (s.nextId + 1) [[(key.id, s.nextId)]]
          micro := s.micro ++ [s.nextId + 1]
          trace := s.trace ++ (allocIds (s.nextId + 2) inits.length).map Ev.stateCell },
        none) ∧
    lookupA (runCmd (.provider key dv v (statesProg inits)) s).1.contextStackMap H =
      lookupA s.contextStackMap H ∧
    lookupA (runCmd (.provider key dv v (statesProg inits)) s).1.storeMap H =
      lookupA s.storeMap H ∧
    (runCmd (.provider key dv v (statesProg inits)) s).1.currentRenderElement = some H ∧
    lookupA (runCmd (.provider key dv v (statesProg inits)) s).1.contextStackMap
        (s.nextId + 1) = some [[(key.id, s.nextId)]] ∧
    lookupA (runCmd (.provider key dv v (statesProg inits)) s).1.storeMap
        (s.nextId + 1) = some ((allocIds (s.nextId + 2) inits.length).map some) := by
  have hcell : newStateCell (jsCoalesce v dv) s =
      .ok (s.nextId,
        { s with
            heap := s.heap ++ [(s.nextId, { ctor := c, value := jsCoalesce v dv })]
            nextId := s.nextId + 1 }) := by
    simp [newStateCell, hc]
  have hmain : runCmd (.provider key dv v (statesProg inits)) s =
      ({ s with
          nextId := s.nextId + 2 + inits.length
          heap := s.heap ++ [(s.nextId, { ctor := c, value := jsCoalesce v dv })] ++
            allocCells c (s.nextId + 2) inits
          storeMap := setA s.storeMap (s.nextId + 1)
            ((allocIds (s.nextId + 2) inits.length).map some)
          indexMap := setA s.indexMap (s.nextId + 1) inits.length
          contextStackMap := setA s.contextStackMap (s.nextId + 1) [[(key.id, s.nextId)]]
          micro := s.micro ++ [s.nextId + 1]
          trace := s.trace ++ (allocIds (s.nextId + 2) inits.length).map Ev.stateCell },
        none) := by
    simp only [runCmd, hcell, scopeEnter, provideContextS, lookupA_setA_self,
      List.getLast?, setA, setA_setA, List.nil_append]
    rw [runProg_states_norm inits
      { s with
          nextId := s.nextId + 1 + 1
          heap := s.heap ++ [(s.nextId, { ctor := c, value := jsCoalesce v dv })]
          indexMap := setA s.indexMap (s.nextId + 1) 0
          contextStackMap := setA s.contextStackMap (s.nextId + 1) [[(key.id, s.nextId)]]
          currentRenderElement := some (s.nextId + 1) }
      (s.nextId + 1) rfl hstore hne]
    rw [runProg_states_create inits
      { s with
          nextId := s.nextId + 1 + 1
          heap := s.heap ++ [(s.nextId, { ctor := c, value := jsCoalesce v dv })]
          storeMap := setA s.storeMap (s.nextId + 1) []
          indexMap := setA s.indexMap (s.nextId + 1) 0
          contextStackMap := setA s.contextStackMap (s.nextId + 1) [[(key.id, s.nextId)]]
          currentRenderElement := some (s.nextId + 1) }
      (s.nextId + 1) 0 c [] rfl (lookupA_setA_self _ _ _) (lookupA_setA_self _ _ _) rfl hc]
    simp only [scopeExit, setA_setA, Nat.zero_add, List.nil_append, List.length_nil]
  refine ⟨hmain, ?_, ?_, ?_, ?_, ?_⟩ <;> rw [hmain]
  · exact lookupA_setA_ne _ _ _ _ (Ne.symm hH)
  · exact lookupA_setA_ne _ _ _ _ (Ne.symm hH)
  · exact hcur
  · exact lookupA_setA_self _ _ _
  · exact lookupA_setA_self _ _ _

/-- Claim C1 amended witness: a Provider call during a render on host 100
in a fresh module state: the nested scope runs on fresh host 1, the frame
`[(7, 0)]` sits on host 1's stack, host 1's store holds the child's cell
2, and host 100's stack/store are untouched. -/
theorem provider_opens_fresh_scope_witness :
    let s : FState :=
      { initState with manualSignalCtor := some 0, currentRenderElement := some 100 }
    let key : ContextKey := { id := 7, dflt := none }
    s.currentRenderElement = some 100 ∧
    signalCtor s = some 0 ∧
    ([some 5] : List JSVal) ≠ [] ∧
    (100 : Nat) ≠ s.nextId + 1 ∧
    lookupA s.storeMap (s.nextId + 1) = none ∧
    (runCmd (.provider key (some 1) none (statesProg [some 5])) s =
      ({ s with
          nextId := 3
          heap := [(0, { ctor := 0, value := some 1 }), (2, { ctor := 0, value := some 5 })]
          storeMap := [(1, [some 2])]
          indexMap := [(1, 1)]
          contextStackMap := [(1, [[(7, 0)]])]
          micro := [1]
          trace := [Ev.stateCell 2] }, none) ∧
    lookupA (runCmd (.provider key (some 1) none (statesProg [some 5])) s).1.contextStackMap 100 =
      lookupA s.contextStackMap 100 ∧
    lookupA (runCmd (.provider key (some 1) none (statesProg [some 5])) s).1.storeMap 100 =
      lookupA s.storeMap 100 ∧
    (runCmd (.provider key (some 1) none (statesProg [some 5])) s).1.currentRenderElement =
      some 100 ∧
    lookupA (runCmd (.provider key (some 1) none (statesProg [some 5])) s).1.contextStackMap
        (s.nextId + 1) = some [[(key.id, s.nextId)]] ∧
    lookupA (runCmd (.provider key (some 1) none (statesProg [some 5])) s).1.storeMap
        (s.nextId + 1) = some ((allocIds (s.nextId + 2) 1).map some)) :=
  ⟨rfl, rfl, by decide, by decide, rfl,
    provider_opens_fresh_scope
      { initState with manualSignalCtor := some 0, currentRenderElement := some 100 }
      { id := 7, dflt := none } (some 1) none [some 5] 100 0
      rfl rfl (by decide) (by decide) rfl⟩

set_option maxHeartbeats 4000000 in
/-- Claim C3 counterexample: with two queued effects of which the first
raises, the flush runs only the first body, and the host's effect queue
is NOT cleared — `effectMap.delete(host)` is skipped because the
exception aborts the microtask callback before the clear; a later flush
after another render pass on the same host re-runs the failed flush's
first effect. This refutes the claim that the queue is still cleared
after a throwing iteration. -/
theorem effect_flush_clear_cex :
    drainMicro (withFunctional (effectsProg [(1, true, none), (2, false, none)]) (some 0)
        { initState with manualSignalCtor := some 0 }).1 =
      { initState with
          manualSignalCtor := some 0
          indexMap := [(0, 0)]
          contextStackMap := [(0, [])]
          effectMap := [(0,
            [{ lbl := 1, throwsFlag := true, ret := none, cleanup := none },
             { lbl := 2, throwsFlag := false, ret := none, cleanup := none }])]
          trace := [Ev.ran 1] } ∧
    lookupA (drainMicro (withFunctional (effectsProg [(1, true, none), (2, false, none)])
        (some 0) { initState with manualSignalCtor := some 0 }).1).effectMap 0 =
      some [{ lbl := 1, throwsFlag := true, ret := none, cleanup := none },
            { lbl := 2, throwsFlag := false, ret := none, cleanup := none }] ∧
    ranEvents (drainMicro (withFunctional (effectsProg [(1, true, none), (2, false, none)])
        (some 0) { initState with manualSignalCtor := some 0 }).1).trace = [1] ∧
    ranEvents (drainMicro (withFunctional []
        (some 0)
        { initState with
            manualSignalCtor := some 0
            indexMap := [(0, 0)]
            contextStackMap := [(0, [])]
            effectMap := [(0,
              [{ lbl := 1, throwsFlag := true, ret := none, cleanup := none },
               { lbl := 2, throwsFlag := false, ret := none, cleanup := none }])]
            trace := [Ev.ran 1] }).1).trace = [1, 1] := by
  have h1 : drainMicro (withFunctional (effectsProg [(1, true, none), (2, false, none)])
      (some 0) { initState with manualSignalCtor := some 0 }).1 =
      { initState with
          manualSignalCtor := some 0
          indexMap := [(0, 0)]
          contextStackMap := [(0, [])]
          effectMap := [(0,
            [{ lbl := 1, throwsFlag := true, ret := none, cleanup := none },
             { lbl := 2, throwsFlag := false, ret := none, cleanup := none }])]
          trace := [Ev.ran 1] } := by decide
  refine ⟨h1, ?_, ?_, ?_⟩
  · rw [h1]; decide
  · rw [h1]; decide
  · decide

/-- Claim C3 amended: during an effect flush for a host, if one queued
effect's run raises, the subsequent queued effects of that flush do NOT
run and the host's effect queue is NOT cleared (the exception skips the
clear that follows the iteration), so a later flush re-runs the effects
of the failed flush — the retained records have the same run data. -/
theorem effect_flush_throw_keeps_queue (host : Nat) (s : FState)
    (a : List EffectRec) (t : EffectRec) (b : List EffectRec)
    (hq : lookupA s.effectMap host = some (a ++ t :: b))
    (ha : ∀ r ∈ a, r.throwsFlag = false)
    (ht : t.throwsFlag = true) :
    (flushHost host s).2 = some .effectThrew ∧
    lookupA (flushHost host s).1.effectMap host =
      some (applyCleanups (a ++ t :: b) a) ∧
    (applyCleanups (a ++ t :: b) a).map runData = (a ++ t :: b).map runData ∧
    ranEvents (flushHost host s).1.trace =
      ranEvents s.trace ++ a.map EffectRec.lbl ++ [t.lbl] := by
  have hf := flushLoop_throw a t b (a ++ t :: b) s ha ht
  simp only [flushHost, hq, hf]
  refine ⟨?_, ?_, ?_, ?_⟩
  · trivial
  · exact lookupA_setA_self _ _ _
  · exact applyCleanups_runData _ _
  · show ranEvents (s.trace ++ List.map (fun r => Ev.ran r.lbl) a ++ [Ev.ran t.lbl]) = _
    rw [ranEvents_append, ranEvents_append, ranEvents_map_ran]
    simp [ranEvents]

/-- Claim C3 amended witness: host 0's queue holds a throwing effect
followed by a second effect; the flush throws, the queue survives with
unchanged run data, and only the first body ran. -/
theorem effect_flush_throw_keeps_queue_witness :
    let t : EffectRec := { lbl := 1, throwsFlag := true, ret := none, cleanup := none }
    let b0 : EffectRec := { lbl := 2, throwsFlag := false, ret := none, cleanup := none }
    let s : FState := { initState with effectMap := [(0, [t, b0])] }
    lookupA s.effectMap 0 = some ([] ++ t :: [b0]) ∧
    t.throwsFlag = true ∧
    ((flushHost 0 s).2 = some .effectThrew ∧
    lookupA (flushHost 0 s).1.effectMap 0 =
      some (applyCleanups ([] ++ t :: [b0]) []) ∧
    (applyCleanups ([] ++ t :: [b0]) []).map runData = ([] ++ t :: [b0]).map runData ∧
    ranEvents (flushHost 0 s).1.trace =
      ranEvents s.trace ++ List.map EffectRec.lbl [] ++ [t.lbl]) :=
  ⟨rfl, rfl,
    effect_flush_throw_keeps_queue 0
      { initState with effectMap :=
          [(0, [{ lbl := 1, throwsFlag := true, ret := none, cleanup := none },
                { lbl := 2, throwsFlag := false, ret := none, cleanup := none }])] }
      [] { lbl := 1, throwsFlag := true, ret := none, cleanup := none }
      [{ lbl := 2, throwsFlag := false, ret := none, cleanup := none }]
      rfl (by intro r hr; simp at hr) rfl⟩

theorem setCleanupLast_getLast (l : List EffectRec) (x : EffectRec) (c : Nat) :
    (setCleanupLast (l ++ [x]) c).getLast? = some { x with cleanup := some c } := by
  rw [setCleanupLast_concat]
  exact List.getLast?_concat _

theorem getD_append_cons {α : Type} (l1 : List α) (x : α) (l2 : List α) (d : α) :
    (l1 ++ x :: l2).getD l1.length d = x := by
  induction l1 with
  | nil => rfl
  | cons y rest ih => simpa using ih

set_option maxHeartbeats 4000000 in
/-- Claim C4 counterexample: three queued effects where the first body
returns the callable 99 (the second throws, so the mutated queue stays in
the map and is observable): after the flush, the callable returned by
record 1's run is stored as RECORD 3's cleanup — the last record of the
queue — while record 1's own cleanup stays absent. This refutes the claim
that a returned callable becomes the cleanup of the specific record whose
run returned it. -/
theorem effect_cleanup_last_record_cex :
    drainMicro (withFunctional
        (effectsProg [(1, false, some 99), (2, true, none), (3, false, none)]) (some 0)
        { initState with manualSignalCtor := some 0 }).1 =
      { initState with
          manualSignalCtor := some 0
          indexMap := [(0, 0)]
          contextStackMap := [(0, [])]
          effectMap := [(0,
            [{ lbl := 1, throwsFlag := false, ret := some 99, cleanup := none },
             { lbl := 2, throwsFlag := true, ret := none, cleanup := none },
             { lbl := 3, throwsFlag := false, ret := none, cleanup := some 99 }])]
          trace := [Ev.ran 1, Ev.ran 2] } ∧
    (([{ lbl := 1, throwsFlag := false, ret := some 99, cleanup := none },
       { lbl := 2, throwsFlag := true, ret := none, cleanup := none },
       { lbl := 3, throwsFlag := false, ret := none, cleanup := some 99 }] :
        List EffectRec).getD 0
      { lbl := 0, throwsFlag := false, ret := none, cleanup := none }).ret = some 99 ∧
    (([{ lbl := 1, throwsFlag := false, ret := some 99, cleanup := none },
       { lbl := 2, throwsFlag := true, ret := none, cleanup := none },
       { lbl := 3, throwsFlag := false, ret := none, cleanup := some 99 }] :
        List EffectRec).getD 0
      { lbl := 0, throwsFlag := false, ret := none, cleanup := none }).cleanup = none ∧
    (([{ lbl := 1, throwsFlag := false, ret := some 99, cleanup := none },
       { lbl := 2, throwsFlag := true, ret := none, cleanup := none },
       { lbl := 3, throwsFlag := false, ret := none, cleanup := some 99 }] :
        List EffectRec).getD 2
      { lbl := 0, throwsFlag := false, ret := none, cleanup := none }).cleanup = some 99 := by
  refine ⟨by decide, by decide, by decide, by decide⟩

/-- Claim C4 amended: when a record's body returns a callable during a
flush, the callable is stored as the cleanup of the LAST record of the
host's queue array (`effects.at(-1)`), not necessarily of the record
whose run returned it — they coincide only when that record is last (for
example a lone `onCleanup`); the stored callable itself is never invoked
by the flush, whose trace holds exactly the records' own bodies in queue
order. -/
theorem effect_cleanup_goes_to_last (a : List EffectRec) (r0 : EffectRec)
    (b : List EffectRec) (c : Nat) (s : FState)
    (hno : ∀ x ∈ a ++ r0 :: b, x.throwsFlag = false)
    (hra : ∀ x ∈ a, x.ret = none)
    (hrb : ∀ x ∈ b, x.ret = none)
    (hr : r0.ret = some c) :
    flushLoop (a ++ r0 :: b) (a ++ r0 :: b) s =
      (setCleanupLast (a ++ r0 :: b) c,
        { s with trace := s.trace ++ (a ++ r0 :: b).map (fun x => Ev.ran x.lbl) },
        none) ∧
    (setCleanupLast (a ++ r0 :: b) c).getLast?.map EffectRec.cleanup =
      some (some c) ∧
    (b ≠ [] →
      (setCleanupLast (a ++ r0 :: b) c).getD a.length
        { lbl := 0, throwsFlag := false, ret := none, cleanup := none } = r0) ∧
    ranEvents ((a ++ r0 :: b).map (fun x => Ev.ran x.lbl)) =
      (a ++ r0 :: b).map EffectRec.lbl := by
  have happ : applyCleanups (a ++ r0 :: b) (a ++ r0 :: b) =
      setCleanupLast (a ++ r0 :: b) c := by
    rw [applyCleanups_append, applyCleanups_ret_none _ a hra]
    show applyCleanups (a ++ r0 :: b) (r0 :: b) = _
    simp only [applyCleanups, hr]
    exact applyCleanups_ret_none _ b hrb
  refine ⟨?_, ?_, ?_, ranEvents_map_ran _⟩
  · rw [flushLoop_noThrow _ _ _ hno, happ]
  · rcases List.eq_nil_or_concat b with hb | ⟨b', x, hb⟩
    · subst hb
      rw [setCleanupLast_getLast a r0 c]
      rfl
    · subst hb
      have hassoc : a ++ r0 :: b'.concat x = (a ++ r0 :: b') ++ [x] := by simp
      rw [hassoc, setCleanupLast_getLast]
      rfl
  · intro hbne
    rcases List.eq_nil_or_concat b with hb | ⟨b', x, hb⟩
    · exact absurd hb hbne
    · subst hb
      have hassoc : a ++ r0 :: b'.concat x = (a ++ r0 :: b') ++ [x] := by simp
      rw [hassoc, setCleanupLast_concat]
      have hlen : a.length < (a ++ r0 :: b').length := by simp
      rw [List.getD_append _ _ _ _ hlen]
      exact getD_append_cons a r0 b' _

/-- Claim C4 amended witness: queue `[r0, b0]` where `r0`'s body returns
99 and `b0` returns nothing — after the loop, 99 sits on `b0` (the last
record), `r0`'s own slot is unchanged, and only the two bodies ran. -/
theorem effect_cleanup_goes_to_last_witness :
    let r0 : EffectRec := { lbl := 1, throwsFlag := false, ret := some 99, cleanup := none }
    let b0 : EffectRec := { lbl := 2, throwsFlag := false, ret := none, cleanup := none }
    (∀ x ∈ ([] ++ r0 :: [b0] : List EffectRec), x.throwsFlag = false) ∧
    r0.ret = some 99 ∧
    (flushLoop ([] ++ r0 :: [b0] : List EffectRec) ([] ++ r0 :: [b0]) initState =
      (setCleanupLast ([] ++ r0 :: [b0]) 99,
        { initState with
            trace := initState.trace ++
              ([] ++ r0 :: [b0] : List EffectRec).map (fun x => Ev.ran x.lbl) },
        none) ∧
    (setCleanupLast ([] ++ r0 :: [b0] : List EffectRec) 99).getLast?.map EffectRec.cleanup =
      some (some 99) ∧
    ([b0] ≠ ([] : List EffectRec) →
      (setCleanupLast ([] ++ r0 :: [b0] : List EffectRec) 99).getD 0
        { lbl := 0, throwsFlag := false, ret := none, cleanup := none } = r0) ∧
    ranEvents (([] ++ r0 :: [b0] : List EffectRec).map (fun x => Ev.ran x.lbl)) =
      ([] ++ r0 :: [b0] : List EffectRec).map EffectRec.lbl) :=
  ⟨by decide, rfl,
    effect_cleanup_goes_to_last []
      { lbl := 1, throwsFlag := false, ret := some 99, cleanup := none }
      [{ lbl := 2, throwsFlag := false, ret := none, cleanup := none }] 99 initState
      (by decide) (by intro x hx; simp at hx) (by decide) rfl⟩

theorem deleteA_setA {α : Type} (m : List (Nat × α)) (k : Nat) (v : α) :
    deleteA (setA m k v) k = deleteA m k := by
  induction m with
  | nil => simp [setA, deleteA]
  | cons kv rest ih =>
      obtain ⟨k0, w⟩ := kv
      by_cases h : k0 = k <;> simp [setA, deleteA, h, ih]

theorem deleteA_not_mem {α : Type} (m : List (Nat × α)) (k : Nat)
    (h : lookupA m k = none) : deleteA m k = m := by
  induction m with
  | nil => rfl
  | cons kv rest ih =>
      obtain ⟨k0, w⟩ := kv
      by_cases h0 : k0 = k
      · subst h0; simp [lookupA] at h
      · simp [lookupA, h0] at h
        simp [deleteA, h0, ih h]

theorem recsOf_lbl (specs : List (Nat × Bool × Option Nat)) :
    (recsOf specs).map EffectRec.lbl = specs.map (fun x => x.1) := by
  simp [recsOf, List.map_map]

/-- Claim C6: no queued effect runs synchronously within the
`withFunctional` call that queued it — the pass's trace gains no effect
execution, and the flush is scheduled exactly once, as the pending
microtask right after the synchronous call returns; when that microtask
runs, the host's effects execute in exactly the order their effect hooks
were invoked during the pass, after which the queue entry is removed. -/
theorem effects_deferred_and_ordered (specs : List (Nat × Bool × Option Nat))
    (H : Nat) (s : FState)
    (hq : lookupA s.effectMap H = none)
    (hmicro : s.micro = [])
    (hno : ∀ x ∈ specs, x.2.1 = false) :
    (withFunctional (effectsProg specs) (some H) s).2 = none ∧
    ranEvents (withFunctional (effectsProg specs) (some H) s).1.trace =
      ranEvents s.trace ∧
    (withFunctional (effectsProg specs) (some H) s).1.micro = [H] ∧
    ranEvents (drainMicro (withFunctional (effectsProg specs) (some H) s).1).trace =
      ranEvents s.trace ++ specs.map (fun x => x.1) ∧
    lookupA (drainMicro (withFunctional (effectsProg specs) (some H) s).1).effectMap H =
      none := by
  cases hsp : specs with
  | nil =>
      subst hsp
      simp only [withFunctional, scopeEnter, scopeExit, effectsProg, runProg]
      refine ⟨trivial, trivial, by simp [hmicro], ?_, ?_⟩
      · simp [drainMicro, hmicro, drainList, flushHost, hq]
      · simp [drainMicro, hmicro, drainList, flushHost, hq]
  | cons x0 rest =>
      subst hsp
      have hrun := runProg_effects_fresh (x0 :: rest)
        { s with
            currentRenderElement := some H
            indexMap := setA s.indexMap H 0
            contextStackMap := setA s.contextStackMap H [] }
        H rfl hq (by simp)
      simp only [withFunctional, scopeEnter, scopeExit, hrun]
      have hnothrow : ∀ r ∈ recsOf (x0 :: rest), r.throwsFlag = false := by
        intro r hr
        simp only [recsOf, List.mem_map] at hr
        obtain ⟨x, hx, rfl⟩ := hr
        exact hno x hx
      have hflush := flushLoop_noThrow (recsOf (x0 :: rest)) (recsOf (x0 :: rest))
        { s with
            currentRenderElement := s.currentRenderElement
            indexMap := setA s.indexMap H 0
            contextStackMap := setA s.contextStackMap H []
            effectMap := setA s.effectMap H (recsOf (x0 :: rest))
            micro := [] }
        hnothrow
      refine ⟨trivial, trivial, by simp [hmicro], ?_, ?_⟩
      · simp only [drainMicro, hmicro, List.nil_append, drainList, flushHost,
          lookupA_setA_self, hflush]
        rw [ranEvents_append, ranEvents_map_ran, recsOf_lbl]
      · simp only [drainMicro, hmicro, List.nil_append, drainList, flushHost,
          lookupA_setA_self, hflush]
        rw [deleteA_setA]
        rw [deleteA_not_mem _ _ hq]
        exact hq

/-- Claim C6 witness: two effects queued on host 0 during one pass: the
pass itself runs none of them and schedules one flush; the drain runs
them as 1 then 2 — hook invocation order — and clears the queue entry. -/
theorem effects_deferred_and_ordered_witness :
    lookupA initState.effectMap 0 = none ∧
    initState.micro = [] ∧
    (∀ x ∈ [(1, false, (none : Option Nat)), (2, false, none)], x.2.1 = false) ∧
    ((withFunctional (effectsProg [(1, false, none), (2, false, none)]) (some 0)
        initState).2 = none ∧
    ranEvents (withFunctional (effectsProg [(1, false, none), (2, false, none)]) (some 0)
        initState).1.trace = ranEvents initState.trace ∧
    (withFunctional (effectsProg [(1, false, none), (2, false, none)]) (some 0)
        initState).1.micro = [0] ∧
    ranEvents (drainMicro (withFunctional (effectsProg [(1, false, none), (2, false, none)])
        (some 0) initState).1).trace =
      ranEvents initState.trace ++
        ([(1, false, (none : Option Nat)), (2, false, none)]).map (fun x => x.1) ∧
    lookupA (drainMicro (withFunctional (effectsProg [(1, false, none), (2, false, none)])
        (some 0) initState).1).effectMap 0 = none) :=
  ⟨rfl, rfl, by decide,
    effects_deferred_and_ordered [(1, false, none), (2, false, none)] 0 initState
      rfl rfl (by decide)⟩

theorem slotIds_map_some (base n1 k m : Nat) (h : k + m ≤ n1) :
    slotIds ((allocIds base n1).map some) k m = allocIds (base + k) m := by
  induction m generalizing k with
  | zero => rfl
  | succ m ih =>
      have hk : k < n1 := by omega
      have hgd := allocIds_map_some_getD base n1 k hk
      have hih := ih (k + 1) (by omega)
      simp only [slotIds, allocIds, hgd, Option.getD_some, hih]
      have : base + (k + 1) = base + k + 1 := by omega
      rw [this]

/-- A complete first render pass of `useState` calls on a host with no
prior store: the pass succeeds, allocates consecutive cells, and reports
them in call order. -/
theorem withFunctional_states_fresh (inits : List JSVal) (H c : Nat) (s : FState)
    (hne : inits ≠ [])
    (hstore : lookupA s.storeMap H = none)
    (hc : signalCtor s = some c) :
    withFunctional (statesProg inits) (some H) s =
      ({ s with
          storeMap := setA s.storeMap H ((allocIds s.nextId inits.length).map some)
          indexMap := setA s.indexMap H inits.length
          contextStackMap := setA s.contextStackMap H []
          heap := s.heap ++ allocCells c s.nextId inits
          nextId := s.nextId + inits.length
          micro := s.micro ++ [H]
          trace := s.trace ++ (allocIds s.nextId inits.length).map Ev.stateCell }, none) := by
  simp only [withFunctional, scopeEnter, scopeExit]
  rw [runProg_states_norm inits
    { s with
        currentRenderElement := some H
        indexMap := setA s.indexMap H 0
        contextStackMap := setA s.contextStackMap H [] }
    H rfl hstore hne]
  rw [runProg_states_create inits
    { s with
        currentRenderElement := some H
        storeMap := setA s.storeMap H []
        indexMap := setA s.indexMap H 0
        contextStackMap := setA s.contextStackMap H [] }
    H 0 c [] rfl (lookupA_setA_self _ _ _) (lookupA_setA_self _ _ _) rfl hc]
  simp only [scopeExit, setA_setA, Nat.zero_add, List.nil_append]

/-- A later render pass of `useState` calls on a host whose store already
holds `n1` populated slots (cells `base, base+1, ...`): the first
`min n1 len` calls return the existing cells in slot order — ignoring the
initial values passed on this pass — and only calls beyond the populated
store create fresh cells; existing heap entries are untouched. -/
theorem withFunctional_states_repeat (inits : List JSVal) (H c base n1 : Nat)
    (s : FState)
    (hstore : lookupA s.storeMap H = some ((allocIds base n1).map some))
    (hc : signalCtor s = some c) :
    withFunctional (statesProg inits) (some H) s =
      ({ s with
          storeMap := setA s.storeMap H
            ((allocIds base n1).map some ++
              (allocIds s.nextId (inits.length - n1)).map some)
          indexMap := setA s.indexMap H inits.length
          contextStackMap := setA s.contextStackMap H []
          heap := s.heap ++ allocCells c s.nextId (inits.drop n1)
          nextId := s.nextId + (inits.length - n1)
          micro := s.micro ++ [H]
          trace := s.trace ++
            (allocIds base (min n1 inits.length) ++
              allocIds s.nextId (inits.length - n1)).map Ev.stateCell }, none) := by
  have hsplit : statesProg inits =
      statesProg (inits.take n1) ++ statesProg (inits.drop n1) := by
    rw [← statesProg_append, List.take_append_drop]
  simp only [withFunctional, scopeEnter, scopeExit]
  rw [hsplit, runProg_append]
  rw [runProg_states_reuse (inits.take n1)
    { s with
        currentRenderElement := some H
        indexMap := setA s.indexMap H 0
        contextStackMap := setA s.contextStackMap H [] }
    H 0 ((allocIds base n1).map some) rfl hstore (lookupA_setA_self _ _ _)
    (by
      intro j hj
      rw [List.length_take] at hj
      have hjn : j < n1 := lt_of_lt_of_le hj (min_le_left _ _)
      rw [Nat.zero_add, allocIds_map_some_getD base n1 j hjn]
      rfl)]
  simp only [setA_setA, Nat.zero_add]
  rcases le_or_lt n1 inits.length with hle | hlt
  · rw [runProg_states_create (inits.drop n1)
      { s with
          currentRenderElement := some H
          indexMap := setA s.indexMap H (inits.take n1).length
          contextStackMap := setA s.contextStackMap H []
          trace := s.trace ++
            (slotIds ((allocIds base n1).map some) 0 (inits.take n1).length).map
              Ev.stateCell }
      H n1 c ((allocIds base n1).map some) rfl hstore
      (by
        rw [lookupA_setA_self]
        simp [List.length_take, Nat.min_eq_left hle])
      (by simp [allocIds_length]) hc]
    simp only [scopeExit, setA_setA, Prod.mk.injEq, and_true]
    rw [slotIds_map_some base n1 0 (inits.take n1).length
      (by rw [List.length_take]; omega)]
    simp only [Nat.add_zero, List.length_take, List.length_drop,
      Nat.min_eq_left hle, Nat.zero_add]
    have hidx2 : n1 + (inits.length - n1) = inits.length := by omega
    rw [List.map_append, hidx2, List.append_assoc]
  · have hdrop : inits.drop n1 = [] := by
      rw [List.drop_eq_nil_iff]
      omega
    rw [hdrop]
    simp only [statesProg, runProg, scopeExit, setA_setA]
    rw [slotIds_map_some base n1 0 (inits.take n1).length
      (by rw [List.length_take]; omega)]
    have hsub : inits.length - n1 = 0 := by omega
    have hmin : min n1 inits.length = inits.length := by omega
    have hmin2 : min n1 inits.length = (inits.take n1).length := by
      rw [List.length_take]
    simp only [hsub, allocIds, List.map_nil, List.append_nil, allocCells,
      Nat.add_zero, List.length_take, Nat.zero_add]
    rw [setA_id _ _ _ hstore, hmin]

/-- Claim C2: on the same host H, the n-th `useState` call of a later
render pass returns the same cell identity as the n-th call of the first
pass (identity stability), and the initial value passed on the later pass
is ignored once the slot is populated — the cell still holds the value
seeded by the first pass; a pass on a different host never returns a cell
identical to one returned on H. -/
theorem useState_identity_stability (c H : Nat) (inits1 inits2 : List JSVal) :
    (withFunctional (statesProg inits1) (some H)
      { initState with manualSignalCtor := some c }).2 = none ∧
    (withFunctional (statesProg inits2) (some H)
      (withFunctional (statesProg inits1) (some H)
        { initState with manualSignalCtor := some c }).1).2 = none ∧
    (∀ n, n < inits1.length → n < inits2.length →
      (stateCells (withFunctional (statesProg inits2) (some H)
          (withFunctional (statesProg inits1) (some H)
            { initState with manualSignalCtor := some c }).1).1.trace).getD
        (inits1.length + n) 0 =
      (stateCells (withFunctional (statesProg inits1) (some H)
          { initState with manualSignalCtor := some c }).1.trace).getD n 0) ∧
    (∀ n, n < inits1.length → n < inits2.length →
      getCell ((stateCells (withFunctional (statesProg inits1) (some H)
          { initState with manualSignalCtor := some c }).1.trace).getD n 0)
        (withFunctional (statesProg inits2) (some H)
          (withFunctional (statesProg inits1) (some H)
            { initState with manualSignalCtor := some c }).1).1 =
      some { ctor := c, value := inits1.getD n none }) ∧
    (∀ H', H' ≠ H → ∀ i j, i < inits1.length → j < inits2.length →
      (stateCells (withFunctional (statesProg inits1) (some H)
          { initState with manualSignalCtor := some c }).1.trace).getD i 0 ≠
      (stateCells (withFunctional (statesProg inits2) (some H')
          (withFunctional (statesProg inits1) (some H)
            { initState with manualSignalCtor := some c }).1).1.trace).getD
        (inits1.length + j) 0) := by
  cases inits1 with
  | nil =>
      refine ⟨rfl, ?_, ?_, ?_, ?_⟩
      · cases inits2 with
        | nil => rfl
        | cons y ys =>
            rw [withFunctional_states_fresh (y :: ys) H c
              (withFunctional (statesProg []) (some H)
                { initState with manualSignalCtor := some c }).1
              (by simp) rfl rfl]
      · intro n hn1 hn2
        simp at hn1
      · intro n hn1 hn2
        simp at hn1
      · intro H' hne i j hi hj
        simp at hi
  | cons i0 rest1 =>
      have hfresh : withFunctional (statesProg (i0 :: rest1)) (some H)
          { initState with manualSignalCtor := some c } =
          ({ manualSignalCtor := some c
             globalSignal := none
             nextId := (i0 :: rest1).length
             heap := allocCells c 0 (i0 :: rest1)
             storeMap := [(H, (allocIds 0 (i0 :: rest1).length).map some)]
             indexMap := [(H, (i0 :: rest1).length)]
             contextStackMap := [(H, [])]
             effectMap := []
             currentRenderElement := none
             micro := [H]
             trace := (allocIds 0 (i0 :: rest1).length).map Ev.stateCell }, none) := by
        rw [withFunctional_states_fresh (i0 :: rest1) H c
          { initState with manualSignalCtor := some c } (by simp) rfl rfl]
        simp [initState, setA]
      have hs1 : lookupA
          ([(H, (allocIds 0 (i0 :: rest1).length).map some)] :
            List (Nat × List (Option Nat))) H =
          some ((allocIds 0 (i0 :: rest1).length).map some) := by
        simp [lookupA]
      have hrep := withFunctional_states_repeat inits2 H c 0 (i0 :: rest1).length
          { manualSignalCtor := some c
            globalSignal := none
            nextId := (i0 :: rest1).length
            heap := allocCells c 0 (i0 :: rest1)
            storeMap := [(H, (allocIds 0 (i0 :: rest1).length).map some)]
            indexMap := [(H, (i0 :: rest1).length)]
            contextStackMap := [(H, [])]
            effectMap := []
            currentRenderElement := none
            micro := [H]
            trace := (allocIds 0 (i0 :: rest1).length).map Ev.stateCell }
          hs1 rfl
      refine ⟨?_, ?_, ?_, ?_, ?_⟩
      · rw [hfresh]
      · rw [hfresh]
        dsimp only
        rw [hrep]
      · intro n hn1 hn2
        rw [hfresh]
        dsimp only
        rw [hrep]
        dsimp only
        rw [stateCells_append, stateCells_map_stateCell, stateCells_map_stateCell,
          List.getD_append_right _ _ _ _ (by simp [allocIds_length])]
        have hsub : (i0 :: rest1).length + n - (allocIds 0 (i0 :: rest1).length).length = n := by
          simp [allocIds_length]
        rw [hsub]
        have h1 : n < (allocIds 0 (min (i0 :: rest1).length inits2.length)).length := by
          rw [allocIds_length]; omega
        rw [List.getD_append _ _ _ _ h1]
        have h2 : n < min (i0 :: rest1).length inits2.length := by omega
        rw [allocIds_getD 0 _ n h2, allocIds_getD 0 _ n hn1]
      · intro n hn1 hn2
        rw [hfresh]
        dsimp only
        rw [hrep]
        dsimp only
        rw [stateCells_map_stateCell, allocIds_getD 0 _ n hn1, Nat.zero_add]
        have hlook := allocCells_lookup c 0 (i0 :: rest1) n hn1
        rw [Nat.zero_add] at hlook
        exact lookupA_append_left _ _ _ _ hlook
      · intro H' hne i j hi hj
        cases inits2 with
        | nil => simp at hj
        | cons y ys =>
            rw [hfresh]
            dsimp only
            have hsH' : lookupA
                ([(H, (allocIds 0 (i0 :: rest1).length).map some)] :
                  List (Nat × List (Option Nat))) H' = none := by
              simp [lookupA, Ne.symm hne]
            rw [withFunctional_states_fresh (y :: ys) H' c
              { manualSignalCtor := some c
                globalSignal := none
                nextId := (i0 :: rest1).length
                heap := allocCells c 0 (i0 :: rest1)
                storeMap := [(H, (allocIds 0 (i0 :: rest1).length).map some)]
                indexMap := [(H, (i0 :: rest1).length)]
                contextStackMap := [(H, [])]
                effectMap := []
                currentRenderElement := none
                micro := [H]
                trace := (allocIds 0 (i0 :: rest1).length).map Ev.stateCell }
              (by simp) hsH' rfl]
            dsimp only
            rw [stateCells_append, stateCells_map_stateCell, stateCells_map_stateCell,
              List.getD_append_right _ _ _ _ (by simp [allocIds_length]),
              allocIds_getD 0 _ i hi]
            have hsub : (i0 :: rest1).length + j - (allocIds 0 (i0 :: rest1).length).length = j := by
              simp [allocIds_length]
            rw [hsub, allocIds_getD _ _ j hj]
            omega

/-- Claim C2 witness: host 5 renders `useState` twice then re-renders
with one `useState` whose different initial is ignored; slot 0 keeps cell
0 and value 1; a pass on host 6 yields a different cell. -/
theorem useState_identity_stability_witness :
    (withFunctional (statesProg [some 1, some 2]) (some 5)
      { initState with manualSignalCtor := some 0 }).2 = none ∧
    (withFunctional (statesProg [some 9]) (some 5)
      (withFunctional (statesProg [some 1, some 2]) (some 5)
        { initState with manualSignalCtor := some 0 }).1).2 = none ∧
    ((0 : Nat) < ([some 1, some 2] : List JSVal).length ∧
      (0 : Nat) < ([some 9] : List JSVal).length ∧
      (stateCells (withFunctional (statesProg [some 9]) (some 5)
          (withFunctional (statesProg [some 1, some 2]) (some 5)
            { initState with manualSignalCtor := some 0 }).1).1.trace).getD
        (([some 1, some 2] : List JSVal).length + 0) 0 =
      (stateCells (withFunctional (statesProg [some 1, some 2]) (some 5)
          { initState with manualSignalCtor := some 0 }).1.trace).getD 0 0) ∧
    getCell ((stateCells (withFunctional (statesProg [some 1, some 2]) (some 5)
        { initState with manualSignalCtor := some 0 }).1.trace).getD 0 0)
      (withFunctional (statesProg [some 9]) (some 5)
        (withFunctional (statesProg [some 1, some 2]) (some 5)
          { initState with manualSignalCtor := some 0 }).1).1 =
      some { ctor := 0, value := ([some 1, some 2] : List JSVal).getD 0 none } ∧
    ((6 : Nat) ≠ 5 ∧
      (stateCells (withFunctional (statesProg [some 1, some 2]) (some 5)
          { initState with manualSignalCtor := some 0 }).1.trace).getD 0 0 ≠
      (stateCells (withFunctional (statesProg [some 9]) (some 6)
          (withFunctional (statesProg [some 1, some 2]) (some 5)
            { initState with manualSignalCtor := some 0 }).1).1.trace).getD
        (([some 1, some 2] : List JSVal).length + 0) 0) :=
  ⟨(useState_identity_stability 0 5 [some 1, some 2] [some 9]).1,
    (useState_identity_stability 0 5 [some 1, some 2] [some 9]).2.1,
    ⟨by decide, by decide,
      (useState_identity_stability 0 5 [some 1, some 2] [some 9]).2.2.1 0
        (by decide) (by decide)⟩,
    (useState_identity_stability 0 5 [some 1, some 2] [some 9]).2.2.2.1 0
      (by decide) (by decide),
    ⟨by decide,
      (useState_identity_stability 0 5 [some 1, some 2] [some 9]).2.2.2.2 6
        (by decide) 0 0 (by decide) (by decide)⟩⟩
